import Mathlib

/-!
Shallow embedding of the dynamic OpenAPI-to-tool bridge in `server.py`
(Cobalt Strike MCP server): the Schema Translator `create_tools_from_openapi`,
the Operation Resolver & Invoker `call_api_operation`, and the protocol
wrapper `call_tool`, together with theorems settling the specification
claims about them.
-/

set_option maxHeartbeats 1000000

namespace CSMCP

/-- JSON-compatible values as they appear in the Python dictionaries
(the OpenAPI document values, tool-call arguments, response payloads).
Numeric values are modelled as integers; floating point is not modelled. -/
inductive Json where
  | str (s : String)
  | num (n : Int)
  | bool (b : Bool)
  | null
  | arr (elems : List Json)
  | obj (fields : List (String × Json))

mutual

/-- Python `repr` of a JSON-compatible value (string escaping inside
`repr` of a string is not modelled; no claim exercises it). -/
def pyRepr : Json → String
  | .str s => "'" ++ s ++ "'"
  | .num n => toString n
  | .bool b => if b then "True" else "False"
  | .null => "None"
  | .arr xs => "[" ++ String.intercalate ", " (pyReprList xs) ++ "]"
  | .obj fs => "\x7b" ++ String.intercalate ", " (pyReprFields fs) ++ "\x7d"

/-- `repr` of each element of a Python list. -/
def pyReprList : List Json → List String
  | [] => []
  | x :: xs => pyRepr x :: pyReprList xs

/-- `repr` of each `key: value` entry of a Python dict. -/
def pyReprFields : List (String × Json) → List String
  | [] => []
  | f :: fs => ("'" ++ f.1 ++ "': " ++ pyRepr f.2) :: pyReprFields fs

end

/-- Python `str()` of a JSON-compatible value: a string is itself, other
values render as their `repr`. -/
def pyStr : Json → String
  | .str s => s
  | j => pyRepr j

/-- Auxiliary for `pyReplace`, working on character lists: replace each
non-overlapping occurrence of `old`, scanning left to right. The fuel
argument makes the recursion structural (each step consumes at least one
character, so fuel equal to the list length always suffices). -/
def replaceAux (old new : List Char) : Nat → List Char → List Char
  | _, [] => []
  | 0, l => l
  | fuel + 1, c :: rest =>
    if old ≠ [] ∧ old.isPrefixOf (c :: rest) then
      new ++ replaceAux old new fuel (rest.drop (old.length - 1))
    else
      c :: replaceAux old new fuel rest

/-- Python `s.replace(old, new)`: every non-overlapping occurrence of `old`
in `s` is replaced by `new`, scanning left to right. The `old = ""` case
(never reached by the bridge, which replaces `"/"` and `"\x7bname\x7d"`)
is modelled as the identity. -/
def pyReplace (s old new : String) : String :=
  ⟨replaceAux old.toList new.toList s.toList.length s.toList⟩

/-- Python dict assignment `d[k] = v` as an association-list operation:
if the key is present its value is replaced in place, otherwise the
entry is appended (Python dicts preserve insertion order). -/
def dictInsert (k : String) (v : α) : List (String × α) → List (String × α)
  | [] => [(k, v)]
  | e :: rest => if e.1 = k then (k, v) :: rest else e :: dictInsert k v rest

/-- Python dict lookup `d.get(k)` / `d[k]` on an association list
(first matching key wins; a Python dict has unique keys). -/
def lookupDict (k : String) : List (String × α) → Option α
  | [] => none
  | e :: rest => if e.1 = k then some e.2 else lookupDict k rest

/-- Scan for `needle` as a contiguous sublist of `hay`. -/
def isSubstrAux (needle : List Char) : List Char → Bool
  | [] => needle.isEmpty
  | c :: rest => needle.isPrefixOf (c :: rest) || isSubstrAux needle rest

/-- Python substring test `needle in hay`. -/
def strContains (needle hay : String) : Bool :=
  isSubstrAux needle.toList hay.toList

/-- The `schema` object of an OpenAPI parameter; only its `type` field is
read by the bridge (`param_schema.get("type", "string")`). -/
structure ParamSchema where
  type : Option String
deriving DecidableEq, Repr

/-- One entry of an operation's `parameters` array. The bridge reads
`name`, `in`, `schema.type`, `required` and `description`; `Option`
marks keys that may be absent (`.get` with a default in the source).
The `name` key is assumed present (OpenAPI requires it). -/
structure Param where
  name : String
  «in» : Option String
  schema : Option ParamSchema
  required : Option Bool
  description : Option String
deriving DecidableEq, Repr

/-- One entry of a request body's `content` map. The bridge only tests
whether the `schema` key is present (`"schema" in content_data`), so the
schema value itself is not modelled. -/
structure ContentData where
  hasSchema : Bool
deriving DecidableEq, Repr

/-- An operation's `requestBody` object: its `content` map (media type to
content object) and its `required` flag, both possibly absent. -/
structure RequestBody where
  content : Option (List (String × ContentData))
  required : Option Bool
deriving DecidableEq, Repr

/-- One OpenAPI operation: the value under a method key of a path item.
Each field models the same-named key of the operation dict; `Option`
marks keys that may be absent. -/
structure Operation where
  operationId : Option String
  summary : Option String
  description : Option String
  parameters : Option (List Param)
  requestBody : Option RequestBody
deriving DecidableEq, Repr

/-- A path item: the dict mapping HTTP method names to operations
(entries with non-method keys are never looked up by the bridge). -/
abbrev PathItem : Type := List (String × Operation)

/-- The loaded OpenAPI document: the `paths` key (absent when the spec has
none) and the names of its other top-level keys (their values are never
read; they only affect the dict's Python truthiness). -/
structure Document where
  paths : Option (List (String × PathItem))
  otherKeys : List String

/-- Python falsiness of the document dict: `not openapi_spec` is true for
an empty dict (and our `Option` layer covers `None`). -/
def Document.isEmpty (d : Document) : Bool :=
  d.paths.isNone && d.otherKeys.isEmpty

/-- The fixed HTTP method iteration order of the bridge:
`["get", "post", "put", "delete", "patch"]`. -/
def httpMethods : List String := ["get", "post", "put", "delete", "patch"]

/-- A property of a tool's input schema: `\x7btype, description\x7d`. -/
structure PropertySchema where
  type : String
  description : String
deriving DecidableEq, Repr

/-- A tool descriptor's input schema: always `type: "object"` with a
`properties` map; the `required` list is present only when non-empty. -/
structure InputSchema where
  type : String
  properties : List (String × PropertySchema)
  required : Option (List String)
deriving DecidableEq, Repr

/-- An MCP tool descriptor as built by the bridge. -/
structure Tool where
  name : String
  description : String
  inputSchema : InputSchema
deriving DecidableEq, Repr

/-- Translator step for one declared parameter (server.py lines 156-165):
add a property named after the parameter, with `type` from its schema
type hint (default `"string"`) and its description (default `""`); append
the name to the required list iff its `required` flag is true. Note the
location tag is not consulted here. -/
def addParam (acc : List (String × PropertySchema) × List String) (p : Param) :
    List (String × PropertySchema) × List String :=
  let props := dictInsert p.name
    ⟨(p.schema.getD ⟨none⟩).type.getD "string", p.description.getD ""⟩ acc.1
  let req := if p.required.getD false then acc.2 ++ [p.name] else acc.2
  (props, req)

/-- The property value stored under `requestBody`:
`\x7b"type": "object", "description": "Request body (JSON)"\x7d`. -/
def rbProp : PropertySchema :=
  { type := "object", description := "Request body (JSON)" }

/-- Whether one content-type entry is recognized as JSON by the bridge:
the media type contains `"application/json"` as a substring and the
content object has a `schema` key. -/
def rbHit (e : String × ContentData) : Bool :=
  strContains "application/json" e.1 && e.2.hasSchema

/-- Translator step for one content-type entry of the request body
(server.py lines 171-178): a recognized JSON entry sets the
`requestBody` property and, when the body is marked required, appends
`"requestBody"` to the required list; other entries are ignored. -/
def rbStep (rb : RequestBody)
    (acc : List (String × PropertySchema) × List String)
    (e : String × ContentData) :
    List (String × PropertySchema) × List String :=
  if rbHit e then
    (dictInsert "requestBody" rbProp acc.1,
     if rb.required.getD false then acc.2 ++ ["requestBody"] else acc.2)
  else acc

/-- Translator handling of `requestBody` (server.py lines 167-178): fold
`rbStep` over the body's `content` entries when both are present. -/
def addRequestBody (op : Operation)
    (acc : List (String × PropertySchema) × List String) :
    List (String × PropertySchema) × List String :=
  match op.requestBody with
  | none => acc
  | some rb =>
    match rb.content with
    | none => acc
    | some entries => entries.foldl (rbStep rb) acc

/-- Build the tool descriptor for one operation (server.py lines 146-192):
name from `operationId` with the `method_path` fallback, description from
summary/method/path/description, input schema from the parameters and the
request body, `required` omitted when empty. -/
def toolOfOperation (method path : String) (op : Operation) : Tool :=
  let operation_id := op.operationId.getD (method ++ "_" ++ pyReplace path "/" "_")
  let summary := op.summary.getD ""
  let description := op.description.getD summary
  let pr := addRequestBody op ((op.parameters.getD []).foldl addParam ([], []))
  { name := operation_id
    description := summary ++ "\n\nPath: " ++ method.toUpper ++ " " ++ path
      ++ "\n" ++ description
    inputSchema :=
      { type := "object"
        properties := pr.1
        required := if pr.2.isEmpty then none else some pr.2 } }

/-- `create_tools_from_openapi` (server.py lines 129-196): returns `[]`
when no spec is loaded, the spec dict is falsy, or it has no `paths` key;
otherwise iterates paths in document order and, per path, the fixed
method list, building one tool per present operation. -/
def create_tools_from_openapi (spec : Option Document) : List Tool :=
  match spec with
  | none => []
  | some doc =>
    if doc.isEmpty then []
    else
      match doc.paths with
      | none => []
      | some ps =>
        ps.flatMap (fun pe =>
          httpMethods.filterMap (fun m =>
            (lookupDict m pe.2).map (fun op => toolOfOperation m pe.1 op)))

/-- The HTTP request issued by the invoker: resolved method, substituted
path, query-parameter dict, and the JSON body (`none` for `get`/`delete`,
which are dispatched without a `json=` argument). -/
structure HttpRequest where
  method : String
  path : String
  params : List (String × Json)
  body : Option Json

/-- The transport's outcome for one request: a 2xx response carrying the
JSON-decoded payload when decoding succeeds (`json`) plus the raw text,
or an `httpx.HTTPError` (transport failure or non-2xx status raised by
`raise_for_status`) carrying its message. -/
inductive HttpResponse where
  | ok (json : Option Json) (text : String)
  | httpError (msg : String)

/-- The exceptions `call_api_operation` can raise. -/
inductive CallError where
  | notInitialized
  | keyError (key : String)
  | apiCallFailed (msg : String)
  | operationNotFound (operationId : String)
deriving DecidableEq, Repr

/-- Python `str(e)` for each raised exception, as `call_tool` renders it. -/
def CallError.message : CallError → String
  | .notInitialized => "API client or OpenAPI spec not initialized"
  | .keyError k => "'" ++ k ++ "'"
  | .apiCallFailed m => "API call failed: " ++ m
  | .operationNotFound opid => "Operation " ++ opid ++ " not found in OpenAPI spec"

/-- A successful invocation result: the JSON-decoded payload, or the raw
response text when decoding fails. -/
inductive ApiResult where
  | json (j : Json)
  | text (t : String)

/-- Resolution over one path item: iterate the fixed method list and
return the first present operation whose `operationId` equals the
requested identifier (`operation.get("operationId") == operation_id`;
an absent identifier never matches). -/
def findInMethods (path : String) (pi : PathItem) (opid : String) :
    List String → Option (String × String × Operation)
  | [] => none
  | m :: ms =>
    match lookupDict m pi with
    | some op =>
      if op.operationId = some opid then some (path, m, op)
      else findInMethods path pi opid ms
    | none => findInMethods path pi opid ms

/-- Resolution over the whole document (server.py lines 214-220): scan
paths in document order, methods in the fixed order; first match wins. -/
def findOperation (opid : String) :
    List (String × PathItem) → Option (String × String × Operation)
  | [] => none
  | pe :: rest =>
    match findInMethods pe.1 pe.2 opid httpMethods with
    | some r => some r
    | none => findOperation opid rest

/-- Argument-partition step for one declared parameter (server.py lines
228-236): when the parameter's name is present in the argument bag, a
`path` parameter substitutes the literal placeholder `\x7bname\x7d` in the
accumulated path with the stringified value, and a `query` parameter is
added to the query dict; any other location leaves both unchanged. -/
def paramStep (args : List (String × Json))
    (acc : String × List (String × Json)) (p : Param) :
    String × List (String × Json) :=
  match lookupDict p.name args with
  | none => acc
  | some v =>
    if p.«in» = some "path" then
      (pyReplace acc.1 ("\x7b" ++ p.name ++ "\x7d") (pyStr v), acc.2)
    else if p.«in» = some "query" then
      (acc.1, dictInsert p.name v acc.2)
    else acc

/-- Build the outgoing request for a resolved operation (server.py lines
221-253): fold the declared parameters over the path template and an
empty query dict, take the body from the reserved `requestBody` argument,
and drop the body for `get`/`delete`. -/
def buildRequest (method path : String) (op : Operation)
    (args : List (String × Json)) : HttpRequest :=
  let pq := (op.parameters.getD []).foldl (paramStep args) (path, [])
  { method := method
    path := pq.1
    params := pq.2
    body := if method = "get" ∨ method = "delete" then none
            else lookupDict "requestBody" args }

/-- `call_api_operation` (server.py lines 199-266), parameterized by the
transport (`send`) and by whether the API client global is initialized.
Raises `notInitialized` when the client is missing or the spec dict is
falsy, a `KeyError` when the spec lacks a `paths` key, resolves the
operation, dispatches one request, wraps transport failures in
`apiCallFailed`, normalizes 2xx responses to JSON-or-text, and raises
`operationNotFound` when no operation matches. -/
def call_api_operation (clientOk : Bool) (spec : Option Document)
    (operation_id : String) (arguments : List (String × Json))
    (send : HttpRequest → HttpResponse) : Except CallError ApiResult :=
  match spec with
  | none => .error .notInitialized
  | some doc =>
    if !clientOk || doc.isEmpty then .error .notInitialized
    else
      match doc.paths with
      | none => .error (.keyError "paths")
      | some ps =>
        match findOperation operation_id ps with
        | none => .error (.operationNotFound operation_id)
        | some (path, method, op) =>
          match send (buildRequest method path op arguments) with
          | .httpError msg => .error (.apiCallFailed msg)
          | .ok jsonOpt text =>
            match jsonOpt with
            | some j => .ok (.json j)
            | none => .ok (.text text)

/-- A `TextContent` protocol payload: `\x7btype: "text", text: ...\x7d`. -/
structure TextContent where
  type : String
  text : String

/-- `json.dumps(result, indent=2)` applied to a decoded JSON payload.
The exact Python pretty-printing (two-space indentation, string
escaping) is modelled by a compact rendering; no claim depends on the
rendering of successful results. -/
def jsonDumps : Json → String
  | .str s => "\x22" ++ s ++ "\x22"
  | .num n => toString n
  | .bool b => if b then "true" else "false"
  | .null => "null"
  | .arr xs => "[" ++ String.intercalate ", " (pyReprList xs) ++ "]"
  | .obj fs => "\x7b" ++ String.intercalate ", " (pyReprFields fs) ++ "\x7d"

/-- Rendering of a successful result (server.py line 312): dicts and
lists via `json.dumps`, everything else via `str()`. -/
def renderResult : ApiResult → String
  | .json j =>
    match j with
    | .obj fs => jsonDumps (.obj fs)
    | .arr xs => jsonDumps (.arr xs)
    | other => pyStr other
  | .text t => t

/-- The `call_tool` protocol wrapper (server.py lines 303-321): call the
operation with `arguments or \x7b\x7d`, render a successful result as one
text payload, and convert any raised exception into a single
`"Error: <message>"` text payload. -/
def call_tool (clientOk : Bool) (spec : Option Document) (name : String)
    (arguments : Option (List (String × Json)))
    (send : HttpRequest → HttpResponse) : List TextContent :=
  match call_api_operation clientOk spec name (arguments.getD []) send with
  | .ok r => [{ type := "text", text := renderResult r }]
  | .error e => [{ type := "text", text := "Error: " ++ e.message }]

/-! ### Concrete example documents and transport stubs used to settle the
claims on explicit inputs. -/

/-- A transport stub that fails every request. -/
def failSend : HttpRequest → HttpResponse :=
  fun _ => .httpError "connection refused"

/-- A transport stub that answers every request with a 2xx response whose
JSON payload echoes the request path, making the dispatched path
observable in the invocation result. -/
def echoSend : HttpRequest → HttpResponse :=
  fun req => .ok (some (.str req.path)) ""

/-- An operation at `GET /beacons/\x7bid\x7d` with no `operationId` and one
required path parameter `id`. -/
def exOpNoId : Operation :=
  { operationId := none, summary := none, description := none,
    parameters := some [{ name := "id", «in» := some "path", schema := none,
                          required := some true, description := none }],
    requestBody := none }

/-- A document whose only operation is `exOpNoId`. -/
def exDocNoId : Document :=
  { paths := some [("/beacons/\x7bid\x7d", [("get", exOpNoId)])], otherKeys := [] }

/-- A header parameter `X-Token` (location neither `path` nor `query`). -/
def exParamHeader : Param :=
  { name := "X-Token", «in» := some "header", schema := none,
    required := some true, description := none }

/-- An operation with a header parameter `X-Token` (location neither
`path` nor `query`). -/
def exOpHeader : Operation :=
  { operationId := some "listBeacons", summary := none, description := none,
    parameters := some [exParamHeader],
    requestBody := none }

/-- A document whose only operation is `exOpHeader`, at `GET /beacons`. -/
def exDocHeader : Document :=
  { paths := some [("/beacons", [("get", exOpHeader)])], otherKeys := [] }

/-- An operation at `GET /a` lacking an `operationId` (fallback name
`"get__a"`) and declaring nothing else. -/
def exOpA : Operation :=
  { operationId := none, summary := none, description := none,
    parameters := none, requestBody := none }

/-- An operation whose `operationId` is literally `"get__a"` — it collides
with the fallback name synthesized for `exOpA`. -/
def exOpB : Operation :=
  { operationId := some "get__a", summary := none, description := none,
    parameters := none, requestBody := none }

/-- A document where the fallback name of the identifier-less operation at
`GET /a` collides with the declared `operationId` of the operation at
`GET /b`. -/
def exDocCollide : Document :=
  { paths := some [("/a", [("get", exOpA)]), ("/b", [("get", exOpB)])],
    otherKeys := [] }

/-- A document containing only the identifier-less operation at `GET /a`,
with no colliding `operationId` anywhere. -/
def exDocNoCollide : Document :=
  { paths := some [("/a", [("get", exOpA)])], otherKeys := [] }

/-- The operation `killBeacon` at `POST /beacons/\x7bid\x7d/kill` with one
required path parameter `id`. -/
def exOpKill : Operation :=
  { operationId := some "killBeacon", summary := none, description := none,
    parameters := some [{ name := "id", «in» := some "path", schema := none,
                          required := some true, description := none }],
    requestBody := none }

/-- A document whose only operation is `exOpKill`. -/
def exDocKill : Document :=
  { paths := some [("/beacons/\x7bid\x7d/kill", [("post", exOpKill)])],
    otherKeys := [] }

/-- An operation declaring a required request body whose content lists
the JSON media type but whose content object has no `schema` key. -/
def exOpBodyNoSchema : Operation :=
  { operationId := some "createListener", summary := none, description := none,
    parameters := none,
    requestBody := some { content := some [("application/json", ⟨false⟩)],
                          required := some true } }

/-- A document whose only operation is `exOpBodyNoSchema`, at `POST /x`. -/
def exDocBodyNoSchema : Document :=
  { paths := some [("/x", [("post", exOpBodyNoSchema)])], otherKeys := [] }

/-- An operation declaring a required request body with a JSON media type
whose content object does carry a `schema` key. -/
def exOpBody : Operation :=
  { operationId := some "createListener", summary := none, description := none,
    parameters := none,
    requestBody := some { content := some [("application/json", ⟨true⟩)],
                          required := some true } }

/-- An operation whose `operationId` is `"getTarget"`. -/
def exOpTarget : Operation :=
  { operationId := some "getTarget", summary := none, description := none,
    parameters := none, requestBody := none }

/-- A transport stub that answers every request with a 2xx response whose
body is not JSON: decoding fails and only the raw text `"plain"` is
available. -/
def textSend : HttpRequest → HttpResponse :=
  fun _ => .ok none "plain"

/-- A loaded, non-empty document with no `paths` key (for example one
holding only an `openapi` version field). -/
def exDocNoPaths : Document :=
  { paths := none, otherKeys := ["openapi"] }

/-- The empty document `\x7b\x7d`: no `paths` key and no other key, hence
falsy as a Python dict. -/
def exDocEmpty : Document :=
  { paths := none, otherKeys := [] }

/-! ### Helper lemmas about the dictionary operations. -/

theorem lookupDict_dictInsert_self (k : String) (v : α) (l : List (String × α)) :
    lookupDict k (dictInsert k v l) = some v := by
  induction l with
  | nil => simp [dictInsert, lookupDict]
  | cons e rest ih =>
    by_cases h : e.1 = k
    · simp [dictInsert, lookupDict, h]
    · simp [dictInsert, lookupDict, h, ih]

theorem lookupDict_dictInsert_ne {k' k : String} (h : k' ≠ k) (v : α)
    (l : List (String × α)) :
    lookupDict k' (dictInsert k v l) = lookupDict k' l := by
  induction l with
  | nil => simp [dictInsert, lookupDict, Ne.symm h]
  | cons e rest ih =>
    by_cases he : e.1 = k
    · subst he
      simp [dictInsert, lookupDict, Ne.symm h]
    · simp [dictInsert, lookupDict, he, ih]

theorem lookupDict_mem {k : String} {v : α} {l : List (String × α)}
    (h : lookupDict k l = some v) : (k, v) ∈ l := by
  induction l with
  | nil => simp [lookupDict] at h
  | cons e rest ih =>
    rw [lookupDict] at h
    by_cases he : e.1 = k
    · rw [if_pos he] at h
      injection h with hv
      rw [← he, ← hv]
      simp
    · rw [if_neg he] at h
      exact List.mem_cons_of_mem _ (ih h)

theorem mem_keys_of_lookupDict_isSome {k : String} {l : List (String × α)}
    (h : (lookupDict k l).isSome) : k ∈ l.map Prod.fst := by
  induction l with
  | nil => simp [lookupDict] at h
  | cons e rest ih =>
    rw [lookupDict] at h
    by_cases he : e.1 = k
    · simp [he]
    · rw [if_neg he] at h
      simp [ih h]

theorem keys_dictInsert (k : String) (v : α) (l : List (String × α)) :
    (dictInsert k v l).map Prod.fst =
      if k ∈ l.map Prod.fst then l.map Prod.fst
      else l.map Prod.fst ++ [k] := by
  induction l with
  | nil => simp [dictInsert]
  | cons e rest ih =>
    by_cases he : e.1 = k
    · simp [dictInsert, he]
    · rw [dictInsert, if_neg he]
      by_cases hm : k ∈ rest.map Prod.fst
      · simp [hm, ih, Ne.symm he]
      · simp [hm, ih, Ne.symm he]

theorem nodup_keys_dictInsert (k : String) (v : α) {l : List (String × α)}
    (h : (l.map Prod.fst).Nodup) :
    ((dictInsert k v l).map Prod.fst).Nodup := by
  rw [keys_dictInsert]
  by_cases hm : k ∈ l.map Prod.fst
  · simpa [hm]
  · simp [hm, List.nodup_append, h]

/-! ### Helper lemmas about the translator's parameter fold. -/

theorem foldl_addParam_isSome_preserved {k : String} :
    ∀ (ps : List Param) (acc : List (String × PropertySchema) × List String),
      (lookupDict k acc.1).isSome →
      (lookupDict k ((ps.foldl addParam acc).1)).isSome
  | [], _, h => h
  | p :: ps, acc, h => by
    rw [List.foldl_cons]
    apply foldl_addParam_isSome_preserved ps
    by_cases he : k = p.name
    · subst he
      simp [addParam, lookupDict_dictInsert_self]
    · simpa [addParam, lookupDict_dictInsert_ne he] using h

theorem foldl_addParam_isSome_of_mem {p : Param} :
    ∀ (ps : List Param) (acc : List (String × PropertySchema) × List String),
      p ∈ ps → (lookupDict p.name ((ps.foldl addParam acc).1)).isSome
  | [], _, h => absurd h (List.not_mem_nil p)
  | q :: ps, acc, h => by
    rw [List.foldl_cons]
    rcases List.mem_cons.mp h with h1 | h2
    · subst h1
      apply foldl_addParam_isSome_preserved ps
      simp [addParam, lookupDict_dictInsert_self]
    · exact foldl_addParam_isSome_of_mem ps _ h2

theorem foldl_addParam_lookup_ne {k : String} :
    ∀ (ps : List Param) (acc : List (String × PropertySchema) × List String),
      (∀ p ∈ ps, p.name ≠ k) →
      lookupDict k ((ps.foldl addParam acc).1) = lookupDict k acc.1
  | [], _, _ => rfl
  | p :: ps, acc, h => by
    rw [List.foldl_cons,
      foldl_addParam_lookup_ne ps _ (fun q hq => h q (List.mem_cons_of_mem _ hq))]
    exact lookupDict_dictInsert_ne (Ne.symm (h p (List.mem_cons_self p ps))) _ _

theorem foldl_addParam_req_subset {x : String} :
    ∀ (ps : List Param) (acc : List (String × PropertySchema) × List String),
      x ∈ (ps.foldl addParam acc).2 → x ∈ acc.2 ∨ x ∈ ps.map Param.name
  | [], _, h => Or.inl h
  | p :: ps, acc, h => by
    rw [List.foldl_cons] at h
    rcases foldl_addParam_req_subset ps _ h with h1 | h2
    · by_cases hr : p.required.getD false
      · simp [addParam, hr] at h1
        rcases h1 with h3 | h4
        · exact Or.inl h3
        · exact Or.inr (by simp [h4])
      · simp [addParam, hr] at h1
        exact Or.inl h1
    · exact Or.inr (by simp [List.mem_cons_of_mem _ h2])

theorem foldl_addParam_keys_nodup :
    ∀ (ps : List Param) (acc : List (String × PropertySchema) × List String),
      (acc.1.map Prod.fst).Nodup →
      (((ps.foldl addParam acc).1).map Prod.fst).Nodup
  | [], _, h => h
  | p :: ps, acc, h => by
    rw [List.foldl_cons]
    exact foldl_addParam_keys_nodup ps _ (nodup_keys_dictInsert _ _ h)

/-! ### Helper lemmas about the translator's request-body fold. -/

theorem foldl_rbStep_isSome_preserved {k : String} {rb : RequestBody} :
    ∀ (es : List (String × ContentData))
      (acc : List (String × PropertySchema) × List String),
      (lookupDict k acc.1).isSome →
      (lookupDict k ((es.foldl (rbStep rb) acc).1)).isSome
  | [], _, h => h
  | e :: es, acc, h => by
    rw [List.foldl_cons]
    apply foldl_rbStep_isSome_preserved es
    by_cases hh : rbHit e
    · by_cases hk : k = "requestBody"
      · subst hk
        simp [rbStep, hh, lookupDict_dictInsert_self]
      · simpa [rbStep, hh, lookupDict_dictInsert_ne hk] using h
    · simpa [rbStep, hh] using h

theorem foldl_rbStep_lookup_ne {k : String} {rb : RequestBody}
    (hk : k ≠ "requestBody") :
    ∀ (es : List (String × ContentData))
      (acc : List (String × PropertySchema) × List String),
      lookupDict k ((es.foldl (rbStep rb) acc).1) = lookupDict k acc.1
  | [], _ => rfl
  | e :: es, acc => by
    rw [List.foldl_cons, foldl_rbStep_lookup_ne hk es]
    by_cases hh : rbHit e
    · simp [rbStep, hh, lookupDict_dictInsert_ne hk]
    · simp [rbStep, hh]

theorem foldl_rbStep_lookup_self {rb : RequestBody} :
    ∀ (es : List (String × ContentData))
      (acc : List (String × PropertySchema) × List String),
      lookupDict "requestBody" acc.1 = some rbProp →
      lookupDict "requestBody" ((es.foldl (rbStep rb) acc).1) = some rbProp
  | [], _, h => h
  | e :: es, acc, h => by
    rw [List.foldl_cons]
    apply foldl_rbStep_lookup_self es
    by_cases hh : rbHit e
    · simp [rbStep, hh, lookupDict_dictInsert_self]
    · simpa [rbStep, hh] using h

theorem foldl_rbStep_lookup_of_hit {rb : RequestBody} :
    ∀ (es : List (String × ContentData))
      (acc : List (String × PropertySchema) × List String),
      (∃ e ∈ es, rbHit e) →
      lookupDict "requestBody" ((es.foldl (rbStep rb) acc).1) = some rbProp
  | [], _, h => absurd h (by simp)
  | e :: es, acc, h => by
    rw [List.foldl_cons]
    rcases h with ⟨f, hf, hhit⟩
    rcases List.mem_cons.mp hf with rfl | hfs
    · apply foldl_rbStep_lookup_self es
      simp [rbStep, hhit, lookupDict_dictInsert_self]
    · exact foldl_rbStep_lookup_of_hit es _ ⟨f, hfs, hhit⟩

theorem foldl_rbStep_id_of_no_hit {rb : RequestBody} :
    ∀ (es : List (String × ContentData))
      (acc : List (String × PropertySchema) × List String),
      (∀ e ∈ es, rbHit e = false) →
      es.foldl (rbStep rb) acc = acc
  | [], _, _ => rfl
  | e :: es, acc, h => by
    rw [List.foldl_cons]
    have he : rbHit e = false := h e (List.mem_cons_self e es)
    rw [show rbStep rb acc e = acc by simp [rbStep, he]]
    exact foldl_rbStep_id_of_no_hit es _
      (fun f hf => h f (List.mem_cons_of_mem _ hf))

theorem foldl_rbStep_req_of_not_required {rb : RequestBody}
    (hr : rb.required.getD false = false) :
    ∀ (es : List (String × ContentData))
      (acc : List (String × PropertySchema) × List String),
      (es.foldl (rbStep rb) acc).2 = acc.2
  | [], _ => rfl
  | e :: es, acc => by
    rw [List.foldl_cons, foldl_rbStep_req_of_not_required hr es]
    by_cases hh : rbHit e
    · simp [rbStep, hh, hr]
    · simp [rbStep, hh]

theorem foldl_rbStep_req_mono {x : String} {rb : RequestBody} :
    ∀ (es : List (String × ContentData))
      (acc : List (String × PropertySchema) × List String),
      x ∈ acc.2 → x ∈ (es.foldl (rbStep rb) acc).2
  | [], _, h => h
  | e :: es, acc, h => by
    rw [List.foldl_cons]
    apply foldl_rbStep_req_mono es
    by_cases hh : rbHit e
    · by_cases hr : rb.required.getD false
      · simp [rbStep, hh, hr, h]
      · simpa [rbStep, hh, hr] using h
    · simpa [rbStep, hh] using h

theorem foldl_rbStep_req_mem_of_hit {rb : RequestBody}
    (hr : rb.required.getD false = true) :
    ∀ (es : List (String × ContentData))
      (acc : List (String × PropertySchema) × List String),
      (∃ e ∈ es, rbHit e) →
      "requestBody" ∈ (es.foldl (rbStep rb) acc).2
  | [], _, h => absurd h (by simp)
  | e :: es, acc, h => by
    rw [List.foldl_cons]
    rcases h with ⟨f, hf, hhit⟩
    rcases List.mem_cons.mp hf with rfl | hfs
    · apply foldl_rbStep_req_mono es
      simp [rbStep, hhit, hr]
    · exact foldl_rbStep_req_mem_of_hit hr es _ ⟨f, hfs, hhit⟩

theorem foldl_rbStep_keys_nodup {rb : RequestBody} :
    ∀ (es : List (String × ContentData))
      (acc : List (String × PropertySchema) × List String),
      (acc.1.map Prod.fst).Nodup →
      (((es.foldl (rbStep rb) acc).1).map Prod.fst).Nodup
  | [], _, h => h
  | e :: es, acc, h => by
    rw [List.foldl_cons]
    apply foldl_rbStep_keys_nodup es
    by_cases hh : rbHit e
    · simpa [rbStep, hh] using nodup_keys_dictInsert "requestBody" rbProp h
    · simpa [rbStep, hh] using h

/-! ### Helper lemmas about operation resolution and schema shape. -/

theorem findInMethods_eq_none {path : String} {pi : PathItem} {opid : String}
    (h : ∀ me ∈ pi, me.2.operationId ≠ some opid) :
    ∀ ms, findInMethods path pi opid ms = none
  | [] => rfl
  | m :: ms => by
    rw [findInMethods]
    cases hlk : lookupDict m pi with
    | none => exact findInMethods_eq_none h ms
    | some op =>
      show (if op.operationId = some opid then some (path, m, op)
            else findInMethods path pi opid ms) = none
      rw [if_neg (h (m, op) (lookupDict_mem hlk))]
      exact findInMethods_eq_none h ms

theorem findOperation_eq_none {opid : String} :
    ∀ {ps : List (String × PathItem)},
      (∀ e ∈ ps, ∀ me ∈ e.2, me.2.operationId ≠ some opid) →
      findOperation opid ps = none := by
  intro ps
  induction ps with
  | nil => intro _; rfl
  | cons e rest ih =>
    intro h
    rw [findOperation,
      findInMethods_eq_none (h e (List.mem_cons_self e rest)) httpMethods]
    exact ih (fun e2 he2 => h e2 (List.mem_cons_of_mem _ he2))

theorem mem_required_getD {x : String} (l : List String) :
    (x ∈ ((if l.isEmpty then none else some l) : Option (List String)).getD [])
      ↔ x ∈ l := by
  cases l <;> simp

/-! ### Claim theorems. -/

/-- C1, counterexample: the fallback naming only replaces slashes with
underscores; the placeholder braces are NOT replaced, so the operation
lacking an identifier at `GET /beacons/\x7bid\x7d` is named
`"get__beacons_\x7bid\x7d"`, not the claimed `"get__beacons__id_"`. -/
theorem C1_counterexample :
    (create_tools_from_openapi (some exDocNoId)).map Tool.name
        = ["get__beacons_\x7bid\x7d"] ∧
    ("get__beacons_\x7bid\x7d" : String) ≠ "get__beacons__id_" :=
  ⟨by decide, by decide⟩

/-- C1, amended: for every operation lacking an operation identifier the
tool is named `method ++ "_" ++ path.replace("/", "_")` — slashes become
underscores but placeholder braces are retained, so `GET
/beacons/\x7bid\x7d` yields `"get__beacons_\x7bid\x7d"`; an operation
whose identifier is present (e.g. `"getTarget"`) is named by it
exactly. -/
theorem C1_tool_naming :
    (∀ (method path : String) (op : Operation), op.operationId = none →
      (toolOfOperation method path op).name
        = method ++ "_" ++ pyReplace path "/" "_") ∧
    (∀ (method path s : String) (op : Operation), op.operationId = some s →
      (toolOfOperation method path op).name = s) ∧
    (create_tools_from_openapi (some exDocNoId)).map Tool.name
        = ["get__beacons_\x7bid\x7d"] := by
  refine ⟨?_, ?_, by decide⟩
  · intro method path op h
    simp [toolOfOperation, h]
  · intro method path s op h
    simp [toolOfOperation, h]

/-- C1, witness: the amended naming rule evaluated at `GET
/beacons/\x7bid\x7d` without an identifier and at an operation whose
identifier is `"getTarget"`. -/
theorem C1_witness :
    (toolOfOperation "get" "/beacons/\x7bid\x7d" exOpNoId).name
        = "get" ++ "_" ++ pyReplace "/beacons/\x7bid\x7d" "/" "_" ∧
    (toolOfOperation "get" "/targets/\x7bid\x7d" exOpTarget).name = "getTarget" :=
  ⟨C1_tool_naming.1 "get" "/beacons/\x7bid\x7d" exOpNoId rfl,
   C1_tool_naming.2.1 "get" "/targets/\x7bid\x7d" "getTarget" exOpTarget rfl⟩

/-- C2, counterexample: a declared parameter whose location is `header`
DOES appear as a property of the tool's input schema — the translator
never consults the location tag. -/
theorem C2_counterexample :
    (create_tools_from_openapi (some exDocHeader)).map
        (fun t => lookupDict "X-Token" t.inputSchema.properties)
      = [some { type := "string", description := "" }] := by
  decide

/-- C2, amended: a declared parameter whose location tag is neither
`path` nor `query` still appears as a property of the tool descriptor's
input schema (the translator adds every declared parameter regardless of
location), but it is ignored by the invoker's argument partition: it is
neither substituted into the path nor added to the query parameters. -/
theorem C2_ignored_locations :
    (∀ (method path : String) (op : Operation) (params : List Param)
        (p : Param), op.parameters = some params → p ∈ params →
        (lookupDict p.name
          (toolOfOperation method path op).inputSchema.properties).isSome
          = true) ∧
    (∀ (args : List (String × Json)) (acc : String × List (String × Json))
        (p : Param), p.«in» ≠ some "path" → p.«in» ≠ some "query" →
        paramStep args acc p = acc) := by
  constructor
  · intro method path op params p hp hmem
    have key : ∀ acc : List (String × PropertySchema) × List String,
        (lookupDict p.name acc.1).isSome →
        (lookupDict p.name (addRequestBody op acc).1).isSome := by
      intro acc h
      rcases hrb : op.requestBody with _ | rb
      · simpa [addRequestBody, hrb] using h
      · rcases hc : rb.content with _ | entries
        · simpa [addRequestBody, hrb, hc] using h
        · simpa [addRequestBody, hrb, hc] using
            foldl_rbStep_isSome_preserved entries acc h
    have h1 : (lookupDict p.name
        (((op.parameters.getD []).foldl addParam ([], [])).1)).isSome := by
      rw [hp]
      exact foldl_addParam_isSome_of_mem params _ hmem
    simpa [toolOfOperation] using key _ h1
  · intro args acc p hpath hquery
    cases hlk : lookupDict p.name args <;>
      simp [paramStep, hlk, hpath, hquery]

/-- C2, witness: the amended behavior evaluated at the `header` parameter
`X-Token` of `exOpHeader`: present in the input schema, ignored by the
argument partition. -/
theorem C2_witness :
    (lookupDict "X-Token"
      (toolOfOperation "get" "/beacons" exOpHeader).inputSchema.properties).isSome
        = true ∧
    paramStep [("X-Token", .str "t")] ("/beacons", []) exParamHeader
      = ("/beacons", []) :=
  ⟨C2_ignored_locations.1 "get" "/beacons" exOpHeader [exParamHeader]
     exParamHeader rfl (by decide),
   C2_ignored_locations.2 [("X-Token", .str "t")] ("/beacons", [])
     exParamHeader (by decide) (by decide)⟩

/-- C3, counterexample: the synthesized fallback name is not always
uninvocable — in `exDocCollide` the identifier-less operation at `GET /a`
synthesizes `"get__a"`, which is the declared `operationId` of the
operation at `GET /b`, so calling `"get__a"` resolves (to the other
operation) and succeeds instead of ending in the operation-not-found
error. -/
theorem C3_counterexample :
    call_api_operation true (some exDocCollide) "get__a" [] echoSend
        = .ok (.json (.str "/b")) ∧
    ∀ e : CallError,
      call_api_operation true (some exDocCollide) "get__a" [] echoSend
        ≠ .error e :=
  ⟨rfl, fun _ h => nomatch h⟩

/-- C3, amended: for every operation lacking an operationId, provided no
operation anywhere in the document declares the synthesized fallback name
as its operationId, calling `call_api_operation` with that fallback name
matches no operation — resolution compares the requested name only
against `operationId` fields, absent for such operations — so the call
ends in the operation-not-found error regardless of the transport. -/
theorem C3_fallback_not_invocable :
    ∀ (doc : Document) (ps : List (String × PathItem))
      (args : List (String × Json)) (send : HttpRequest → HttpResponse)
      (path : String) (pi : PathItem) (method : String) (op : Operation),
      doc.paths = some ps → (path, pi) ∈ ps →
      lookupDict method pi = some op → op.operationId = none →
      (∀ e ∈ ps, ∀ me ∈ e.2,
        me.2.operationId ≠ some (method ++ "_" ++ pyReplace path "/" "_")) →
      call_api_operation true (some doc)
          (method ++ "_" ++ pyReplace path "/" "_") args send
        = .error (.operationNotFound
            (method ++ "_" ++ pyReplace path "/" "_")) := by
  intro doc ps args send path pi method op hps _ _ _ hno
  have hne : doc.isEmpty = false := by simp [Document.isEmpty, hps]
  simp [call_api_operation, hps, hne, findOperation_eq_none hno]

/-- C3, witness: in `exDocNoCollide` (no colliding identifier) calling
the fallback name `"get__a"` of the identifier-less `GET /a` operation
ends in the operation-not-found error. -/
theorem C3_witness :
    call_api_operation true (some exDocNoCollide)
        ("get" ++ "_" ++ pyReplace "/a" "/" "_") [] failSend
      = .error (.operationNotFound
          ("get" ++ "_" ++ pyReplace "/a" "/" "_")) :=
  C3_fallback_not_invocable exDocNoCollide [("/a", [("get", exOpA)])] []
    failSend "/a" [("get", exOpA)] "get" exOpA rfl (by decide) (by decide)
    rfl (by decide)

/-- C4: for every declared parameter with location `path` whose name is
present in the argument bag, the partition step substitutes the literal
placeholder `\x7bname\x7d` in the accumulated path template with the
stringified argument value (no URL-escaping); and end to end, invoking
`killBeacon` (template `/beacons/\x7bid\x7d/kill`) with argument bag
`\x7bid: "42"\x7d` dispatches the request to `/beacons/42/kill` (the
transport echoes the request path back as the result). -/
theorem C4_path_substitution :
    (∀ (args : List (String × Json)) (acc : String × List (String × Json))
        (p : Param) (v : Json),
        p.«in» = some "path" → lookupDict p.name args = some v →
        paramStep args acc p
          = (pyReplace acc.1 ("\x7b" ++ p.name ++ "\x7d") (pyStr v), acc.2)) ∧
    call_api_operation true (some exDocKill) "killBeacon"
        [("id", .str "42")] echoSend
      = .ok (.json (.str "/beacons/42/kill")) := by
  refine ⟨?_, rfl⟩
  intro args acc p v hin hlk
  simp [paramStep, hlk, hin]

/-- C4, witness: the substitution step evaluated at the path parameter
`id` of `exOpKill` with argument `"42"`. -/
theorem C4_witness :
    paramStep [("id", .str "42")] ("/beacons/\x7bid\x7d/kill", [])
        { name := "id", «in» := some "path", schema := none,
          required := some true, description := none }
      = (pyReplace "/beacons/\x7bid\x7d/kill" ("\x7b" ++ "id" ++ "\x7d")
          (pyStr (.str "42")), []) :=
  C4_path_substitution.1 [("id", .str "42")] ("/beacons/\x7bid\x7d/kill", [])
    { name := "id", «in» := some "path", schema := none,
      required := some true, description := none } (.str "42") rfl rfl

/-- C5, counterexample: an operation whose request body content includes
the JSON media type but whose content object lacks a `schema` key gets NO
`requestBody` property and no required entry — the code additionally
demands `"schema" in content_data`, which the claim omits. -/
theorem C5_counterexample :
    (create_tools_from_openapi (some exDocBodyNoSchema)).map
        (fun t => (lookupDict "requestBody" t.inputSchema.properties,
                   t.inputSchema.required))
      = [(none, none)] := by
  decide

/-- C5, amended: for every operation declaring a request body whose
content includes a JSON media type (a content type containing
`"application/json"`) whose content object carries a `schema` key — and
none of whose declared parameters is itself named `requestBody` — the
translator adds exactly one input-schema property named `requestBody` of
type `object`, and `requestBody` is in the schema's required list iff the
body itself is marked required; content entries that are not JSON or
carry no schema contribute nothing. -/
theorem C5_requestBody_translation :
    ∀ (method path : String) (op : Operation) (rb : RequestBody)
      (entries : List (String × ContentData)),
      op.requestBody = some rb → rb.content = some entries →
      (∀ p ∈ op.parameters.getD [], p.name ≠ "requestBody") →
      ((∃ e ∈ entries, rbHit e = true) →
        lookupDict "requestBody"
            (toolOfOperation method path op).inputSchema.properties
          = some rbProp ∧
        ((toolOfOperation method path op).inputSchema.properties.map
            Prod.fst).count "requestBody" = 1 ∧
        ("requestBody"
            ∈ (toolOfOperation method path op).inputSchema.required.getD []
          ↔ rb.required.getD false = true)) ∧
      ((∀ e ∈ entries, rbHit e = false) →
        lookupDict "requestBody"
            (toolOfOperation method path op).inputSchema.properties = none ∧
        "requestBody"
          ∉ (toolOfOperation method path op).inputSchema.required.getD []) := by
  intro method path op rb entries hrb hc hnames
  set P : List (String × PropertySchema) × List String :=
    (op.parameters.getD []).foldl addParam ([], []) with hP
  have hPn : lookupDict "requestBody" P.1 = none :=
    foldl_addParam_lookup_ne _ _ hnames
  have hPreq : "requestBody" ∉ P.2 := by
    intro hx
    rcases foldl_addParam_req_subset _ _ hx with h1 | h2
    · exact absurd h1 (List.not_mem_nil _)
    · rcases List.mem_map.mp h2 with ⟨p, hp, hpeq⟩
      exact hnames p hp hpeq
  have hPnodup : (P.1.map Prod.fst).Nodup :=
    foldl_addParam_keys_nodup _ _ (by simp)
  have htool_props :
      (toolOfOperation method path op).inputSchema.properties
        = (entries.foldl (rbStep rb) P).1 := by
    simp [toolOfOperation, addRequestBody, hrb, hc, hP]
  have htool_req :
      (toolOfOperation method path op).inputSchema.required
        = (if (entries.foldl (rbStep rb) P).2.isEmpty then none
           else some (entries.foldl (rbStep rb) P).2) := by
    simp [toolOfOperation, addRequestBody, hrb, hc, hP]
  constructor
  · rintro ⟨e, he, hhit⟩
    have hlook := @foldl_rbStep_lookup_of_hit rb entries P ⟨e, he, hhit⟩
    refine ⟨by rw [htool_props]; exact hlook, ?_, ?_⟩
    · rw [htool_props]
      have hnd : (((entries.foldl (rbStep rb) P).1).map Prod.fst).Nodup :=
        foldl_rbStep_keys_nodup entries P hPnodup
      have hmem : "requestBody"
          ∈ ((entries.foldl (rbStep rb) P).1).map Prod.fst :=
        mem_keys_of_lookupDict_isSome (by rw [hlook]; rfl)
      exact List.count_eq_one_of_mem hnd hmem
    · rw [htool_req, mem_required_getD]
      constructor
      · intro hmem
        by_contra hr
        have hr' : rb.required.getD false = false := by
          simpa using hr
        rw [foldl_rbStep_req_of_not_required hr' entries P] at hmem
        exact hPreq hmem
      · intro hr
        exact foldl_rbStep_req_mem_of_hit hr entries P ⟨e, he, hhit⟩
  · intro hno
    rw [htool_props, htool_req, foldl_rbStep_id_of_no_hit entries P hno]
    exact ⟨hPn, by rw [mem_required_getD]; exact hPreq⟩

/-- C5, witness: the amended behavior evaluated at `exOpBody`, a required
request body whose single content entry is `application/json` with a
schema: the `requestBody` property is present exactly once and is
required. -/
theorem C5_witness :
    lookupDict "requestBody"
        (toolOfOperation "post" "/x" exOpBody).inputSchema.properties
      = some rbProp ∧
    ((toolOfOperation "post" "/x" exOpBody).inputSchema.properties.map
        Prod.fst).count "requestBody" = 1 ∧
    ("requestBody"
        ∈ (toolOfOperation "post" "/x" exOpBody).inputSchema.required.getD []
      ↔ (({ content := some [("application/json", ⟨true⟩)],
            required := some true } : RequestBody)).required.getD false
          = true) :=
  (C5_requestBody_translation "post" "/x" exOpBody
      { content := some [("application/json", ⟨true⟩)], required := some true }
      [("application/json", ⟨true⟩)] rfl rfl (by decide)).1
    ⟨("application/json", ⟨true⟩), by decide, by decide⟩

/-- C6, counterexample: a loaded, non-empty document with no `paths` key
makes `call_api_operation` fail with the `KeyError` from indexing
`openapi_spec["paths"]`, not with the operation-not-found error. -/
theorem C6_counterexample :
    call_api_operation true (some exDocNoPaths) "getBeacons" [] failSend
        = .error (.keyError "paths") ∧
    CallError.keyError "paths" ≠ CallError.operationNotFound "getBeacons" :=
  ⟨rfl, by decide⟩

/-- C6, amended: for every loaded document that contains a `paths` key
and every operation identifier matching no operation's operationId
anywhere in it, `call_api_operation` scans all paths and methods and
fails with the operation-not-found error, whose message names the
identifier; the outcome is the same for every transport, so no HTTP
request determines it. -/
theorem C6_unknown_operation :
    ∀ (doc : Document) (ps : List (String × PathItem)) (opid : String)
      (args : List (String × Json)) (send : HttpRequest → HttpResponse),
      doc.paths = some ps →
      (∀ e ∈ ps, ∀ me ∈ e.2, me.2.operationId ≠ some opid) →
      call_api_operation true (some doc) opid args send
          = .error (.operationNotFound opid) ∧
      (CallError.operationNotFound opid).message
          = "Operation " ++ opid ++ " not found in OpenAPI spec" := by
  intro doc ps opid args send hps hno
  have hne : doc.isEmpty = false := by simp [Document.isEmpty, hps]
  exact ⟨by simp [call_api_operation, hps, hne, findOperation_eq_none hno],
         rfl⟩

/-- C6, witness: invoking the unknown identifier `"selfDestruct"` against
`exDocKill` ends in the operation-not-found error naming it. -/
theorem C6_witness :
    call_api_operation true (some exDocKill) "selfDestruct" [] failSend
        = .error (.operationNotFound "selfDestruct") ∧
    (CallError.operationNotFound "selfDestruct").message
        = "Operation " ++ "selfDestruct" ++ " not found in OpenAPI spec" :=
  C6_unknown_operation exDocKill
    [("/beacons/\x7bid\x7d/kill", [("post", exOpKill)])] "selfDestruct" []
    failSend rfl (by decide)

/-- C7: for every tool name and argument bag, `call_tool` always returns
exactly one text payload, and whenever `call_api_operation` raises any
error the payload's text is exactly `"Error: "` followed by the error's
message — no exception propagates to the protocol layer. -/
theorem C7_call_tool_error_wrapping :
    ∀ (clientOk : Bool) (spec : Option Document) (name : String)
      (arguments : Option (List (String × Json)))
      (send : HttpRequest → HttpResponse),
      (∃ c : TextContent, call_tool clientOk spec name arguments send = [c]) ∧
      (∀ e : CallError,
        call_api_operation clientOk spec name (arguments.getD []) send
          = .error e →
        call_tool clientOk spec name arguments send
          = [{ type := "text", text := "Error: " ++ e.message }]) := by
  intro clientOk spec name arguments send
  unfold call_tool
  cases h : call_api_operation clientOk spec name (arguments.getD []) send with
  | ok r =>
    refine ⟨⟨_, rfl⟩, fun e he => ?_⟩
    exact Except.noConfusion he
  | error e =>
    refine ⟨⟨_, rfl⟩, fun e2 he2 => ?_⟩
    injection he2 with h3
    subst h3
    rfl

/-- C7, witness: invoking before any document is loaded raises the
not-initialized error, which `call_tool` renders as a single
`"Error: ..."` text payload. -/
theorem C7_witness :
    call_tool true none "getBeacons" none failSend
      = [{ type := "text",
           text := "Error: API client or OpenAPI spec not initialized" }] :=
  (C7_call_tool_error_wrapping true none "getBeacons" none failSend).2
    .notInitialized rfl

/-- C8: for every resolved operation, a 2xx transport response yields the
JSON-decoded payload when decoding succeeds and otherwise the raw
response text — both as successful (`.ok`) invocation results, never as
errors. -/
theorem C8_response_normalization :
    ∀ (doc : Document) (ps : List (String × PathItem)) (opid : String)
      (args : List (String × Json)) (send : HttpRequest → HttpResponse)
      (path method : String) (op : Operation) (jsonOpt : Option Json)
      (text : String),
      doc.paths = some ps →
      findOperation opid ps = some (path, method, op) →
      send (buildRequest method path op args) = .ok jsonOpt text →
      call_api_operation true (some doc) opid args send
        = .ok (match jsonOpt with
               | some j => .json j
               | none => .text text) := by
  intro doc ps opid args send path method op jsonOpt text hps hfind hsend
  have hne : doc.isEmpty = false := by simp [Document.isEmpty, hps]
  cases jsonOpt <;> simp [call_api_operation, hps, hne, hfind, hsend]

/-- C8, witness: against `exDocKill`, a JSON 2xx response (the echoing
transport) yields the decoded JSON value, and a non-JSON 2xx response
(the `textSend` transport) yields the raw text `"plain"`. -/
theorem C8_witness :
    call_api_operation true (some exDocKill) "killBeacon" [] echoSend
        = .ok (.json (.str "/beacons/\x7bid\x7d/kill")) ∧
    call_api_operation true (some exDocKill) "killBeacon" [] textSend
        = .ok (.text "plain") :=
  ⟨C8_response_normalization exDocKill
      [("/beacons/\x7bid\x7d/kill", [("post", exOpKill)])] "killBeacon" []
      echoSend "/beacons/\x7bid\x7d/kill" "post" exOpKill
      (some (.str "/beacons/\x7bid\x7d/kill")) "" rfl rfl rfl,
   C8_response_normalization exDocKill
      [("/beacons/\x7bid\x7d/kill", [("post", exOpKill)])] "killBeacon" []
      textSend "/beacons/\x7bid\x7d/kill" "post" exOpKill none "plain"
      rfl rfl rfl⟩

/-- C9: a loaded document with no `paths` key, or an empty `paths`
collection, makes `create_tools_from_openapi` return the empty tool list
rather than fail. -/
theorem C9_no_paths_yields_no_tools :
    ∀ doc : Document, doc.paths = none ∨ doc.paths = some [] →
      create_tools_from_openapi (some doc) = [] := by
  intro doc h
  rcases h with h | h
  · by_cases he : doc.isEmpty <;> simp [create_tools_from_openapi, h, he]
  · have hne : doc.isEmpty = false := by simp [Document.isEmpty, h]
    simp [create_tools_from_openapi, h, hne]

/-- C9, witness: the translator evaluated at a document with no `paths`
key. -/
theorem C9_witness :
    create_tools_from_openapi (some exDocNoPaths) = [] :=
  C9_no_paths_yields_no_tools exDocNoPaths (Or.inl rfl)

/-- C10: the invoker lacks the translator's tolerance for a missing
`paths` key: a non-empty loaded document without `paths` makes
`call_api_operation` fail with the `KeyError` from
`openapi_spec["paths"]` for every operation identifier — an error
distinct from the not-initialized and operation-not-found errors — and
for the empty document `\x7b\x7d`, the falsy `not openapi_spec` check
reports the not-initialized error even though a document was loaded. -/
theorem C10_invoker_missing_paths :
    ∀ (opid : String) (args : List (String × Json))
      (send : HttpRequest → HttpResponse),
      (∀ doc : Document, doc.paths = none → doc.isEmpty = false →
        call_api_operation true (some doc) opid args send
          = .error (.keyError "paths")) ∧
      CallError.keyError "paths" ≠ CallError.notInitialized ∧
      (∀ opid2 : String,
        CallError.keyError "paths" ≠ CallError.operationNotFound opid2) ∧
      call_api_operation true (some exDocEmpty) opid args send
        = .error .notInitialized := by
  intro opid args send
  refine ⟨?_, by decide, fun opid2 h => CallError.noConfusion h, rfl⟩
  intro doc hp hne
  simp [call_api_operation, hp, hne]

/-- C10, witness: the `KeyError` outcome evaluated at the concrete
pathless non-empty document `exDocNoPaths` and identifier
`"getBeacons"`. -/
theorem C10_witness :
    call_api_operation true (some exDocNoPaths) "getBeacons" [] echoSend
      = .error (.keyError "paths") :=
  (C10_invoker_missing_paths "getBeacons" [] echoSend).1 exDocNoPaths rfl rfl

end CSMCP
